import Mathlib

/-!
Verification development for the tcp-bank server (Node.js/TypeScript).

The embedding models the newer command module (the one using owner-encoded
file names, `findAccountFile` and proxy forwarding) together with the server
data handler of the main module.

Modelling conventions:
- The accounts directory is a list of `Account` records kept in creation
  order.  Each record stands for one file whose name is
  `num ++ "_" ++ owner ++ ".txt"` and whose content is the canonical decimal
  string of `balance` (every write in the source stores
  `newBalance.toString()`, and BigInt rendering/parsing of canonical decimal
  strings is a bijection, so the content is represented by the integer it
  denotes; the source's string comparison `balance === "0"` corresponds to
  `balance = 0` on canonical contents).
- JavaScript string operations are reproduced on `List Char`:
  `split` with a one-character separator, `replace` of the first occurrence
  of a pattern, `trim`, and splitting on whitespace runs as done by
  `input.split(/\s+/)` on a trimmed input.
- The proxy round trip (`proxyCommand`) is modelled by an oracle mapping the
  target bank code and the sent line to either the remote's trimmed reply or
  a connection/timeout error message; the dispatcher records the forwarded
  request in the result so theorems can talk about what was sent.
- JavaScript template interpolation of a possibly-undefined string is
  modelled by `jsStr`, which renders `undefined` as the string "undefined".
-/

/-- One stored account file: number part of the file name, owner (client IP)
part of the file name, and the balance denoted by the file content. -/
structure Account where
  num : String
  owner : String
  balance : Int
deriving DecidableEq

/-- Result of one proxy round trip: resolved with the remote's trimmed reply,
or rejected with an error message (connection error or "TIMEOUT"). -/
inductive ProxyResult where
  | reply (s : String)
  | err (msg : String)
deriving DecidableEq

/-- The environment's behaviour for outbound proxy connections. -/
def ProxyOracle : Type := String → String → ProxyResult

/-- Outcome of a command handler: normal completion with the new directory,
the line written to the client and an optional forwarded request, or a thrown
error (message of the exception) with the directory at throw time. -/
inductive ExecOutcome where
  | ok (dir : List Account) (resp : String) (fwd : Option (String × String))
  | thrown (msg : String) (dir : List Account)
deriving DecidableEq

/-- Directory component of an outcome. -/
def ExecOutcome.dirOf : ExecOutcome → List Account
  | .ok d _ _ => d
  | .thrown _ d => d

/-- Result of dispatching one received data chunk: the directory afterwards,
the lines written back to the client (without the CRLF terminator), and the
forwarded request, when one was attempted. -/
structure DispatchResult where
  dir : List Account
  written : List String
  forwarded : Option (String × String)
deriving DecidableEq

/-- JavaScript `String.prototype.split` with a one-character separator,
on character lists: `"".split(c)` gives `[""]`, separators between every
pair of fragments. -/
def jsSplitChar (sep : Char) : List Char → List (List Char)
  | [] => [[]]
  | c :: cs =>
    if c = sep then [] :: jsSplitChar sep cs
    else
      match jsSplitChar sep cs with
      | [] => [[c]]
      | t :: ts => (c :: t) :: ts

/-- String version of `jsSplitChar`. -/
def jsSplitOn (sep : Char) (s : String) : List String :=
  (jsSplitChar sep s.data).map (fun l => ⟨l⟩)

/-- JavaScript `String.prototype.replace` with a string pattern and empty
replacement: removes the first occurrence of `pat`, leaves the string
unchanged when `pat` does not occur. -/
def replaceFirstChars (pat : List Char) : List Char → List Char
  | [] => []
  | c :: cs =>
    if pat.isPrefixOf (c :: cs) then (c :: cs).drop pat.length
    else c :: replaceFirstChars pat cs

/-- Drop leading and trailing whitespace of a character list. -/
def trimChars (s : List Char) : List Char :=
  ((s.dropWhile Char.isWhitespace).reverse.dropWhile Char.isWhitespace).reverse

/-- JavaScript `String.prototype.trim` (restricted to ASCII whitespace). -/
def jsTrim (s : String) : String := ⟨trimChars s.data⟩

/-- Longest whitespace-free prefix of a character list. -/
def takeTok : List Char → List Char
  | [] => []
  | c :: cs => if c.isWhitespace then [] else c :: takeTok cs

/-- Rest of a character list after its first whitespace character. -/
def dropTok : List Char → List Char
  | [] => []
  | c :: cs => if c.isWhitespace then c :: cs else dropTok cs

/-- Fuelled worker for `toks`. -/
def toksGo : Nat → List Char → List (List Char)
  | _, [] => []
  | 0, _ :: _ => []
  | fuel + 1, c :: cs =>
    if c.isWhitespace then toksGo fuel cs
    else (c :: takeTok cs) :: toksGo fuel (dropTok cs)

/-- Split a character list into maximal whitespace-free tokens.  On a trimmed
nonempty input this agrees with JavaScript `input.split(/\s+/)` (restricted to
ASCII whitespace). -/
def toks (s : List Char) : List (List Char) := toksGo s.length s

/-- Token list of a received chunk, after trimming, as strings. -/
def tokensOf (input : String) : List String :=
  (toks (jsTrim input).data).map (fun l => ⟨l⟩)

/-- JavaScript template interpolation of a possibly-undefined string. -/
def jsStr (o : Option String) : String := o.getD "undefined"

/-- Value of a digit-only amount string (`BigInt(amountStr)` for strings
matching the source's digit check). -/
def parseNatDigits (s : String) : Nat :=
  s.data.foldl (fun n c => 10 * n + (c.toNat - 48)) 0

/-- File name under which an account is stored: `num_owner.txt`. -/
def fileNameOf (a : Account) : String := a.num ++ "_" ++ a.owner ++ ".txt"

/-- Whether an account's file is found by the prefix search of
`findAccountFile` for the requested account number. -/
def matchesAcc (acc : String) (a : Account) : Bool :=
  (acc ++ "_").data.isPrefixOf (fileNameOf a).data

/-- The source's `findAccountFile`: first directory entry whose file name
starts with the requested account number followed by an underscore. -/
def findAccountFile (dir : List Account) (acc : String) : Option Account :=
  dir.find? (matchesAcc acc)

/-- Overwrite the content of the file `findAccountFile` finds (`fs.writeFile`
on the found path): replaces the balance of the first matching entry. -/
def writeBalance (dir : List Account) (acc : String) (b : Int) : List Account :=
  match dir with
  | [] => []
  | a :: rest =>
    if matchesAcc acc a then ⟨a.num, a.owner, b⟩ :: rest
    else a :: writeBalance rest acc b

/-- Delete the file `findAccountFile` finds (`fs.unlink` on the found path):
removes the first matching entry. -/
def removeAccount (dir : List Account) (acc : String) : List Account :=
  match dir with
  | [] => []
  | a :: rest => if matchesAcc acc a then rest else a :: removeAccount rest acc

/-- The source's owner extraction in `RemoveCommand` and
`BankClientsCommand`: strip the first ".txt" occurrence from the file name,
split on underscores, take index 1 when present. -/
def ownerOf (a : Account) : Option String :=
  ((jsSplitChar '_' (replaceFirstChars ".txt".data (fileNameOf a).data)).get? 1).map fun l => ⟨l⟩

/-- Digit-only check of the amount argument, the source's regular expression
test of amountStr (an absent argument stringifies to "undefined" and fails
the test). -/
def amountOk (o : Option String) : Bool :=
  match o with
  | some s => !(s == "") && s.data.all Char.isDigit
  | none => false

/-- Local branch of `TransactionCommand.execute` (deposit or withdrawal on a
locally stored account). -/
def transactionLocal (ty : String) (dir : List Account) (acc : String)
    (amountStr : Option String) : ExecOutcome :=
  match findAccountFile dir acc with
  | none => .ok dir "ER Špatný formát nebo účet neexistuje." none
  | some a =>
    if amountOk amountStr then
      let amount : Int := parseNatDigits (amountStr.getD "")
      if ty = "AD" then .ok (writeBalance dir acc (a.balance + amount)) ty none
      else if a.balance < amount then .thrown "LOW_FUNDS" dir
      else .ok (writeBalance dir acc (a.balance - amount)) ty none
    else .ok dir "ER Špatný formát nebo účet neexistuje." none

/-- The source's `TransactionCommand.execute`: splits the first argument on
the slash; a defined, nonempty bank-code part different from the local bank
code is proxied (the sent line re-derived from the parsed tokens), anything
else is handled locally. -/
def TransactionCommand.execute (ty bankCode : String) (oracle : ProxyOracle)
    (dir : List Account) (args : List String) : ExecOutcome :=
  let parts := jsSplitOn '/' ((args.get? 0).getD "")
  let acc := parts.headD ""
  match parts.get? 1 with
  | some ip =>
    if ip ≠ "" ∧ ip ≠ bankCode then
      let line := ty ++ " " ++ jsStr (args.get? 0) ++ " " ++ jsStr (args.get? 1)
      match oracle ip line with
      | .reply r => .ok dir r (some (ip, line))
      | .err m => .ok dir ("ER Chyba při komunikaci s cizí bankou: " ++ m) (some (ip, line))
    else transactionLocal ty dir acc (args.get? 1)
  | none => transactionLocal ty dir acc (args.get? 1)

/-- Local branch of `BalanceCommand.execute`. -/
def balanceLocal (dir : List Account) (acc : String) : ExecOutcome :=
  match findAccountFile dir acc with
  | none => .ok dir "ER Účet neexistuje." none
  | some a => .ok dir ("AB " ++ toString a.balance) none

/-- The source's `BalanceCommand.execute`. -/
def BalanceCommand.execute (bankCode : String) (oracle : ProxyOracle)
    (dir : List Account) (args : List String) : ExecOutcome :=
  let parts := jsSplitOn '/' ((args.get? 0).getD "")
  let acc := parts.headD ""
  match parts.get? 1 with
  | some ip =>
    if ip ≠ "" ∧ ip ≠ bankCode then
      let line := "AB " ++ jsStr (args.get? 0)
      match oracle ip line with
      | .reply r => .ok dir r (some (ip, line))
      | .err m => .ok dir ("ER Chyba při komunikaci s cizí bankou: " ++ m) (some (ip, line))
    else balanceLocal dir acc
  | none => balanceLocal dir acc

/-- The source's `RemoveCommand.execute` (newer version): finds the file,
compares the owner encoded in the file name with the requester's IP, deletes
only at balance zero. -/
def RemoveCommand.execute (clientIp : String) (dir : List Account)
    (args : List String) : ExecOutcome :=
  let acc := (jsSplitOn '/' ((args.get? 0).getD "")).headD ""
  match findAccountFile dir acc with
  | none => .ok dir "ER Účet neexistuje." none
  | some a =>
    if ownerOf a ≠ some clientIp then
      .ok dir "ER Účet může smazat pouze jeho zakladatel z původní IP adresy." none
    else if a.balance = 0 then .ok (removeAccount dir acc) "AR" none
    else .ok dir "ER Nelze smazat bankovní účet na kterém jsou finance." none

/-- The source's `AccountCreateCommand.execute`, with the generated account
number supplied from outside (the collision-retry loop only exits on a file
name not already present). -/
def AccountCreateCommand.execute (bankCode clientIp freshNum : String)
    (dir : List Account) : ExecOutcome :=
  .ok (dir ++ [⟨freshNum, clientIp, 0⟩]) ("AC " ++ freshNum ++ "/" ++ bankCode) none

/-- Sum computed by `BankAmountCommand.execute`: fold of the contents of
every file in the accounts directory. -/
def bankTotal (dir : List Account) : Int :=
  dir.foldl (fun t a => t + a.balance) 0

/-- The source's `BankAmountCommand.execute`. -/
def BankAmountCommand.execute (dir : List Account) : ExecOutcome :=
  .ok dir ("BA " ++ toString (bankTotal dir)) none

/-- Count computed by `BankClientsCommand.execute`: number of distinct
strings obtained by parsing the owner part out of every file name that has
one. -/
def bnCount (dir : List Account) : Nat :=
  ((dir.filterMap ownerOf).dedup).length

/-- The source's `BankClientsCommand.execute`. -/
def BankClientsCommand.execute (dir : List Account) : ExecOutcome :=
  .ok dir ("BN " ++ toString (bnCount dir)) none

/-- Handler lookup and execution: the command registry of the source, as a
chain over the fixed verb set, with the unknown-verb reply of the server
loop. -/
def execCmd (bankCode clientIp freshNum : String) (oracle : ProxyOracle)
    (dir : List Account) (cmd : String) (args : List String) : ExecOutcome :=
  if cmd = "BC" then .ok dir ("BC " ++ bankCode) none
  else if cmd = "AC" then AccountCreateCommand.execute bankCode clientIp freshNum dir
  else if cmd = "AD" then TransactionCommand.execute "AD" bankCode oracle dir args
  else if cmd = "AW" then TransactionCommand.execute "AW" bankCode oracle dir args
  else if cmd = "AB" then BalanceCommand.execute bankCode oracle dir args
  else if cmd = "AR" then RemoveCommand.execute clientIp dir args
  else if cmd = "BA" then BankAmountCommand.execute dir
  else if cmd = "BN" then BankClientsCommand.execute dir
  else if cmd = "exit" then .ok dir "OK Goodbye" none
  else .ok dir "ER Neznámý příkaz" none

/-- Error mapping of the server loop's catch block. -/
def mapCaught (m : String) : String :=
  if m = "TIMEOUT" then "ER Operace trvala příliš dlouho!"
  else if m = "LOW_FUNDS" then "ER Není dostatek finančních prostředků!"
  else "ER Chyba na serveru"

/-- Execute one parsed command and turn a thrown handler error into the
catch block's response line. -/
def runCmd (bankCode clientIp freshNum : String) (oracle : ProxyOracle)
    (dir : List Account) (cmd : String) (args : List String) : DispatchResult :=
  match execCmd bankCode clientIp freshNum oracle dir cmd args with
  | .ok d r f => ⟨d, [r], f⟩
  | .thrown m d => ⟨d, [mapCaught m], none⟩

/-- The server loop's data handler for one received chunk: trim, ignore an
empty line, refuse every command while the network monitor reports no
connectivity, split into verb and arguments, run the handler. -/
def dispatch (netUp : Bool) (bankCode clientIp freshNum : String)
    (oracle : ProxyOracle) (dir : List Account) (input : String) : DispatchResult :=
  if jsTrim input = "" then ⟨dir, [], none⟩
  else if netUp then
    match tokensOf input with
    | [] => ⟨dir, ["ER Neznámý příkaz"], none⟩
    | cmd :: args => runCmd bankCode clientIp freshNum oracle dir cmd args
  else ⟨dir, ["ER Není připojen síťový kabel (příkazy jsou blokovány)"], none⟩

/-- Character set of the IP-address strings the runtime can hand to the
command handlers as a client address (decimal digits, dots, colons and
lower-case hexadecimal letters). -/
def ipChar (c : Char) : Bool :=
  c.isDigit || c == '.' || c == ':' || ('a' ≤ c && c ≤ 'f')

/-- A nonempty string of IP-address characters. -/
def ipOkStr (s : String) : Prop := s ≠ "" ∧ s.data.all ipChar = true

/-- A nonempty string of decimal digits (the shape of every generated
account number). -/
def numOkStr (s : String) : Prop := s ≠ "" ∧ s.data.all Char.isDigit = true

/-- Well-formedness of the name parts of a stored account record. -/
def AccountWF (a : Account) : Prop := numOkStr a.num ∧ ipOkStr a.owner

/-- Store invariant: every stored account has a digit account number, an
IP-shaped owner and a non-negative balance. -/
def StoreInv (dir : List Account) : Prop := ∀ a ∈ dir, 0 ≤ a.balance ∧ AccountWF a

/-- States of the accounts directory reachable by the server loop: starting
from the empty directory, any sequence of received chunks, with client
addresses shaped like IP addresses and generated account numbers that are
digit strings fresh for the creating client (the collision-retry loop of
account creation only exits on a file name not already present). -/
inductive Reachable : List Account → Prop
  | init : Reachable []
  | step (netUp : Bool) (bankCode clientIp freshNum input : String)
      (oracle : ProxyOracle) (dir : List Account)
      (hip : ipOkStr clientIp) (hnum : numOkStr freshNum)
      (hfresh : ∀ a ∈ dir, fileNameOf a ≠ freshNum ++ "_" ++ clientIp ++ ".txt")
      (h : Reachable dir) :
      Reachable (dispatch netUp bankCode clientIp freshNum oracle dir input).dir

theorem matchesAcc_setBalance (acc : String) (a : Account) (b : Int) :
    matchesAcc acc ⟨a.num, a.owner, b⟩ = matchesAcc acc a := rfl

theorem find_writeBalance (dir : List Account) (acc : String) (b : Int) :
    findAccountFile (writeBalance dir acc b) acc =
      (findAccountFile dir acc).map (fun a => ⟨a.num, a.owner, b⟩) := by
  induction dir with
  | nil => rfl
  | cons a rest ih =>
    by_cases h : matchesAcc acc a
    · have h' : matchesAcc acc (⟨a.num, a.owner, b⟩ : Account) = true := by
        rw [matchesAcc_setBalance]; exact h
      simp [writeBalance, findAccountFile, h, h', List.find?_cons_of_pos]
    · simp only [writeBalance, if_neg h]
      show List.find? (matchesAcc acc) (a :: writeBalance rest acc b) =
        Option.map (fun a => (⟨a.num, a.owner, b⟩ : Account)) (List.find? (matchesAcc acc) (a :: rest))
      rw [List.find?_cons_of_neg _ h, List.find?_cons_of_neg _ h]
      exact ih

theorem writeBalance_self (dir : List Account) (acc : String) (a : Account)
    (h : findAccountFile dir acc = some a) : writeBalance dir acc a.balance = dir := by
  induction dir with
  | nil => simp [findAccountFile] at h
  | cons y rest ih =>
    by_cases hy : matchesAcc acc y
    · have : y = a := by
        rw [findAccountFile, List.find?_cons_of_pos _ hy] at h
        exact (Option.some.inj h)
      subst this
      simp [writeBalance, hy]
    · rw [findAccountFile, List.find?_cons_of_neg _ hy] at h
      simp [writeBalance, hy, ih h]

theorem mem_writeBalance {x : Account} {dir : List Account} {acc : String} {b : Int}
    (h : x ∈ writeBalance dir acc b) : x ∈ dir ∨ ∃ y ∈ dir, x = ⟨y.num, y.owner, b⟩ := by
  induction dir with
  | nil => simp [writeBalance] at h
  | cons a rest ih =>
    by_cases ha : matchesAcc acc a
    · rw [writeBalance, if_pos ha] at h
      rcases List.mem_cons.mp h with h1 | h1
      · exact Or.inr ⟨a, List.mem_cons_self a rest, h1⟩
      · exact Or.inl (List.mem_cons_of_mem a h1)
    · rw [writeBalance, if_neg ha] at h
      rcases List.mem_cons.mp h with h1 | h1
      · exact Or.inl (h1 ▸ List.mem_cons_self a rest)
      · rcases ih h1 with h2 | ⟨y, hy, he⟩
        · exact Or.inl (List.mem_cons_of_mem a h2)
        · exact Or.inr ⟨y, List.mem_cons_of_mem a hy, he⟩

theorem mem_removeAccount {x : Account} {dir : List Account} {acc : String}
    (h : x ∈ removeAccount dir acc) : x ∈ dir := by
  induction dir with
  | nil => simp [removeAccount] at h
  | cons a rest ih =>
    by_cases ha : matchesAcc acc a
    · rw [removeAccount, if_pos ha] at h
      exact List.mem_cons_of_mem a h
    · rw [removeAccount, if_neg ha] at h
      rcases List.mem_cons.mp h with h1 | h1
      · exact h1 ▸ List.mem_cons_self a rest
      · exact List.mem_cons_of_mem a (ih h1)

theorem find_mem {dir : List Account} {acc : String} {a : Account}
    (h : findAccountFile dir acc = some a) : a ∈ dir :=
  List.mem_of_find?_eq_some h

theorem find_removeAccount {dir : List Account} {acc : String} {a : Account}
    (h : findAccountFile dir acc = some a)
    (hu : dir.countP (matchesAcc acc) ≤ 1) :
    findAccountFile (removeAccount dir acc) acc = none := by
  induction dir with
  | nil => simp [findAccountFile] at h
  | cons y rest ih =>
    rw [List.countP_cons] at hu
    by_cases hy : matchesAcc acc y
    · rw [removeAccount, if_pos hy]
      simp only [hy, if_pos] at hu
      have hz : rest.countP (matchesAcc acc) = 0 := by omega
      show List.find? (matchesAcc acc) rest = none
      rw [List.find?_eq_none]
      intro x hx
      have := List.countP_eq_zero.mp hz x hx
      simp at this
      simp [this]
    · rw [removeAccount, if_neg hy]
      have h' : List.find? (matchesAcc acc) rest = some a := by
        rw [findAccountFile, List.find?_cons_of_neg _ hy] at h
        exact h
      simp only [hy, if_neg, Bool.false_eq_true, if_false, Nat.add_zero] at hu
      show List.find? (matchesAcc acc) (y :: removeAccount rest acc) = none
      rw [List.find?_cons_of_neg _ hy]
      exact ih h' hu

theorem jsSplitChar_no_sep {sep : Char} : ∀ {l : List Char}, sep ∉ l →
    jsSplitChar sep l = [l] := by
  intro l
  induction l with
  | nil => intro _; rfl
  | cons c cs ih =>
    intro h
    have hc : ¬(c = sep) := fun e => h (by simp [e])
    have hcs : sep ∉ cs := fun hm => h (List.mem_cons_of_mem _ hm)
    simp only [jsSplitChar, if_neg hc, ih hcs]

theorem jsSplitChar_append {sep : Char} : ∀ {xs : List Char} (ys : List Char),
    sep ∉ xs → jsSplitChar sep (xs ++ sep :: ys) = xs :: jsSplitChar sep ys := by
  intro xs
  induction xs with
  | nil =>
    intro ys _
    simp [jsSplitChar]
  | cons c cs ih =>
    intro ys h
    have hc : ¬(c = sep) := fun e => h (by simp [e])
    have hcs : sep ∉ cs := fun hm => h (List.mem_cons_of_mem _ hm)
    rw [List.cons_append]
    simp only [jsSplitChar, if_neg hc, ih ys hcs]

theorem replaceFirst_txt : ∀ (s : List Char), 't' ∉ s →
    replaceFirstChars ".txt".data (s ++ ".txt".data) = s := by
  have hpat : ".txt".data = ['.', 't', 'x', 't'] := rfl
  intro s
  induction s with
  | nil => intro _; decide
  | cons c cs ih =>
    intro h
    have hc : c ≠ 't' := fun e => h (by simp [e])
    have hcs : 't' ∉ cs := fun hm => h (List.mem_cons_of_mem _ hm)
    have hpre : (".txt".data.isPrefixOf (c :: (cs ++ ".txt".data))) = false := by
      show (('.' == c) && (['t', 'x', 't'].isPrefixOf (cs ++ ".txt".data))) = false
      by_cases he : c = '.'
      · subst he
        simp only [beq_self_eq_true, Bool.true_and]
        cases cs with
        | nil => decide
        | cons d ds =>
          have hd : d ≠ 't' := fun e => hcs (by simp [e])
          show (('t' == d) && (['x', 't'].isPrefixOf (ds ++ ".txt".data))) = false
          have hb : ('t' == d) = false := beq_eq_false_iff_ne.mpr (Ne.symm hd)
          simp [hb]
      · have hb : ('.' == c) = false := beq_eq_false_iff_ne.mpr (Ne.symm he)
        simp [hb]
    rw [List.cons_append, replaceFirstChars, hpre]
    simp only [Bool.false_eq_true, if_false]
    rw [ih hcs]

theorem data_append_eq (s t : String) : (s ++ t).data = s.data ++ t.data := rfl

theorem ownerOf_eq {a : Account} (hw : AccountWF a) : ownerOf a = some a.owner := by
  obtain ⟨⟨hn1, hn2⟩, ⟨ho1, ho2⟩⟩ := hw
  have hnum_c : ∀ c ∈ a.num.data, c ≠ 't' ∧ c ≠ '_' := by
    intro c hc
    have hd := List.all_eq_true.mp hn2 c hc
    constructor
    · intro e; rw [e] at hd; exact absurd hd (by decide)
    · intro e; rw [e] at hd; exact absurd hd (by decide)
  have hown_c : ∀ c ∈ a.owner.data, c ≠ 't' ∧ c ≠ '_' := by
    intro c hc
    have hd := List.all_eq_true.mp ho2 c hc
    constructor
    · intro e; rw [e] at hd; exact absurd hd (by decide)
    · intro e; rw [e] at hd; exact absurd hd (by decide)
  have hfile : (fileNameOf a).data =
      (a.num.data ++ '_' :: a.owner.data) ++ ".txt".data := by
    show (a.num ++ "_" ++ a.owner ++ ".txt").data = _
    simp [data_append_eq]
  have hrep : replaceFirstChars ".txt".data (fileNameOf a).data =
      a.num.data ++ '_' :: a.owner.data := by
    rw [hfile]
    apply replaceFirst_txt
    intro hm
    rcases List.mem_append.mp hm with hm | hm
    · exact (hnum_c 't' hm).1 rfl
    · rcases List.mem_cons.mp hm with hm | hm
      · exact absurd hm (by decide)
      · exact (hown_c 't' hm).1 rfl
  have hsplit : jsSplitChar '_' (a.num.data ++ '_' :: a.owner.data) =
      [a.num.data, a.owner.data] := by
    rw [jsSplitChar_append a.owner.data (fun hm => (hnum_c '_' hm).2 rfl),
        jsSplitChar_no_sep (fun hm => (hown_c '_' hm).2 rfl)]
  unfold ownerOf
  rw [hrep, hsplit]
  rfl

theorem StoreInv_writeBalance {dir : List Account} {acc : String} {b : Int}
    (h : StoreInv dir) (hb : 0 ≤ b) : StoreInv (writeBalance dir acc b) := by
  intro x hx
  rcases mem_writeBalance hx with hx | ⟨y, hy, he⟩
  · exact h x hx
  · subst he
    exact ⟨hb, (h y hy).2⟩

theorem StoreInv_removeAccount {dir : List Account} {acc : String}
    (h : StoreInv dir) : StoreInv (removeAccount dir acc) :=
  fun x hx => h x (mem_removeAccount hx)

theorem runCmd_dir (bankCode clientIp freshNum : String) (orc : ProxyOracle)
    (dir : List Account) (cmd : String) (args : List String) :
    (runCmd bankCode clientIp freshNum orc dir cmd args).dir =
      (execCmd bankCode clientIp freshNum orc dir cmd args).dirOf := by
  unfold runCmd ExecOutcome.dirOf
  cases execCmd bankCode clientIp freshNum orc dir cmd args <;> rfl

theorem transactionLocal_inv {ty : String} {dir : List Account} {acc : String}
    {amountStr : Option String} (h : StoreInv dir) :
    StoreInv (transactionLocal ty dir acc amountStr).dirOf := by
  simp only [transactionLocal]
  split
  · exact h
  · next a hf =>
    split
    · split
      · refine StoreInv_writeBalance h ?_
        have h1 := (h a (find_mem hf)).1
        have h2 := Int.natCast_nonneg (parseNatDigits (amountStr.getD ""))
        omega
      · split
        · exact h
        · next hlt =>
          refine StoreInv_writeBalance h ?_
          omega
    · exact h

theorem TransactionCommand_inv {ty bankCode : String} {orc : ProxyOracle}
    {dir : List Account} {args : List String} (h : StoreInv dir) :
    StoreInv (TransactionCommand.execute ty bankCode orc dir args).dirOf := by
  simp only [TransactionCommand.execute]
  split
  · split
    · split
      · exact h
      · exact h
    · exact transactionLocal_inv h
  · exact transactionLocal_inv h

theorem BalanceCommand_dirOf (bankCode : String) (orc : ProxyOracle)
    (dir : List Account) (args : List String) :
    (BalanceCommand.execute bankCode orc dir args).dirOf = dir := by
  simp only [BalanceCommand.execute, balanceLocal]
  split
  · split
    · split
      · rfl
      · rfl
    · split
      · rfl
      · rfl
  · split
    · rfl
    · rfl

theorem RemoveCommand_inv {clientIp : String} {dir : List Account}
    {args : List String} (h : StoreInv dir) :
    StoreInv (RemoveCommand.execute clientIp dir args).dirOf := by
  simp only [RemoveCommand.execute]
  split
  · exact h
  · split
    · exact h
    · split
      · exact StoreInv_removeAccount h
      · exact h

theorem execCmd_inv {bankCode clientIp freshNum : String} {orc : ProxyOracle}
    {dir : List Account} {cmd : String} {args : List String}
    (hip : ipOkStr clientIp) (hnum : numOkStr freshNum) (h : StoreInv dir) :
    StoreInv (execCmd bankCode clientIp freshNum orc dir cmd args).dirOf := by
  unfold execCmd
  split_ifs
  · exact h
  · simp only [AccountCreateCommand.execute, ExecOutcome.dirOf]
    intro x hx
    rcases List.mem_append.mp hx with hx | hx
    · exact h x hx
    · have hxe : x = ⟨freshNum, clientIp, 0⟩ := by
        rcases List.mem_cons.mp hx with he | he
        · exact he
        · simp at he
      subst hxe
      exact ⟨le_refl 0, hnum, hip⟩
  · exact TransactionCommand_inv h
  · exact TransactionCommand_inv h
  · rw [BalanceCommand_dirOf]; exact h
  · exact RemoveCommand_inv h
  · exact h
  · exact h
  · exact h
  · exact h

theorem dispatch_inv {netUp : Bool} {bankCode clientIp freshNum input : String}
    {orc : ProxyOracle} {dir : List Account}
    (hip : ipOkStr clientIp) (hnum : numOkStr freshNum) (h : StoreInv dir) :
    StoreInv (dispatch netUp bankCode clientIp freshNum orc dir input).dir := by
  unfold dispatch
  split
  · exact h
  · split
    · split
      · exact h
      · rw [runCmd_dir]
        exact execCmd_inv hip hnum h
    · exact h

theorem reachable_StoreInv {dir : List Account} (h : Reachable dir) : StoreInv dir := by
  induction h with
  | init => intro a ha; simp at ha
  | step netUp bankCode clientIp freshNum input oracle dir hip hnum hfresh hr ih =>
    exact dispatch_inv hip hnum ih

theorem dispatch_eq_runCmd {bankCode clientIp freshNum input cmd : String}
    {orc : ProxyOracle} {dir : List Account} {args : List String}
    (h : tokensOf input = cmd :: args) :
    dispatch true bankCode clientIp freshNum orc dir input =
      runCmd bankCode clientIp freshNum orc dir cmd args := by
  have hne : ¬(jsTrim input = "") := by
    intro he
    have h0 : tokensOf input = [] := by
      unfold tokensOf
      rw [he]
      rfl
    rw [h0] at h
    exact absurd h (by simp)
  unfold dispatch
  rw [if_neg hne, if_pos rfl, h]

theorem execCmd_AD (bankCode clientIp freshNum : String) (orc : ProxyOracle)
    (dir : List Account) (args : List String) :
    execCmd bankCode clientIp freshNum orc dir "AD" args =
      TransactionCommand.execute "AD" bankCode orc dir args := rfl

theorem execCmd_AW (bankCode clientIp freshNum : String) (orc : ProxyOracle)
    (dir : List Account) (args : List String) :
    execCmd bankCode clientIp freshNum orc dir "AW" args =
      TransactionCommand.execute "AW" bankCode orc dir args := rfl

theorem execCmd_AB (bankCode clientIp freshNum : String) (orc : ProxyOracle)
    (dir : List Account) (args : List String) :
    execCmd bankCode clientIp freshNum orc dir "AB" args =
      BalanceCommand.execute bankCode orc dir args := rfl

theorem execCmd_AR (bankCode clientIp freshNum : String) (orc : ProxyOracle)
    (dir : List Account) (args : List String) :
    execCmd bankCode clientIp freshNum orc dir "AR" args =
      RemoveCommand.execute clientIp dir args := rfl

theorem execCmd_BA (bankCode clientIp freshNum : String) (orc : ProxyOracle)
    (dir : List Account) (args : List String) :
    execCmd bankCode clientIp freshNum orc dir "BA" args =
      BankAmountCommand.execute dir := rfl

theorem execCmd_BN (bankCode clientIp freshNum : String) (orc : ProxyOracle)
    (dir : List Account) (args : List String) :
    execCmd bankCode clientIp freshNum orc dir "BN" args =
      BankClientsCommand.execute dir := rfl

theorem runCmd_ok {bankCode clientIp freshNum cmd : String} {orc : ProxyOracle}
    {dir : List Account} {args : List String} {d : List Account} {r : String}
    {f : Option (String × String)}
    (h : execCmd bankCode clientIp freshNum orc dir cmd args = .ok d r f) :
    runCmd bankCode clientIp freshNum orc dir cmd args = ⟨d, [r], f⟩ := by
  unfold runCmd
  rw [h]

theorem runCmd_thrown {bankCode clientIp freshNum cmd : String} {orc : ProxyOracle}
    {dir : List Account} {args : List String} {m : String} {d : List Account}
    (h : execCmd bankCode clientIp freshNum orc dir cmd args = .thrown m d) :
    runCmd bankCode clientIp freshNum orc dir cmd args = ⟨d, [mapCaught m], none⟩ := by
  unfold runCmd
  rw [h]

theorem TransactionCommand_local (ty bankCode target : String) (rest : List String)
    (orc : ProxyOracle) (dir : List Account)
    (hip : (jsSplitOn '/' target).get? 1 = none ∨ (jsSplitOn '/' target).get? 1 = some "" ∨
      (jsSplitOn '/' target).get? 1 = some bankCode) :
    TransactionCommand.execute ty bankCode orc dir (target :: rest) =
      transactionLocal ty dir ((jsSplitOn '/' target).headD "") (rest.get? 0) := by
  simp only [TransactionCommand.execute, List.get?_cons_zero, List.get?_cons_succ,
    Option.getD_some]
  rcases hip with h | h | h
  · rw [h]
  · simp only [h]
    rw [if_neg (by simp)]
  · simp only [h]
    rw [if_neg (by simp)]

theorem BalanceCommand_local (bankCode target : String) (rest : List String)
    (orc : ProxyOracle) (dir : List Account)
    (hip : (jsSplitOn '/' target).get? 1 = none ∨ (jsSplitOn '/' target).get? 1 = some "" ∨
      (jsSplitOn '/' target).get? 1 = some bankCode) :
    BalanceCommand.execute bankCode orc dir (target :: rest) =
      balanceLocal dir ((jsSplitOn '/' target).headD "") := by
  simp only [BalanceCommand.execute, List.get?_cons_zero, List.get?_cons_succ,
    Option.getD_some]
  rcases hip with h | h | h
  · rw [h]
  · simp only [h]
    rw [if_neg (by simp)]
  · simp only [h]
    rw [if_neg (by simp)]

theorem amountOk_some {s : String} (h1 : s ≠ "") (h2 : s.data.all Char.isDigit = true) :
    amountOk (some s) = true := by
  have hb : (s == "") = false := by
    rw [beq_eq_false_iff_ne]
    exact h1
  simp [amountOk, h2, hb]

theorem transactionLocal_AD {dir : List Account} {acc : String} {a : Account}
    {amountStr : String} (hfound : findAccountFile dir acc = some a)
    (hdig : amountOk (some amountStr) = true) :
    transactionLocal "AD" dir acc (some amountStr) =
      .ok (writeBalance dir acc (a.balance + (parseNatDigits amountStr : Int))) "AD" none := by
  simp only [transactionLocal, hfound, hdig, if_true, Option.getD_some]

theorem transactionLocal_AW_ok {dir : List Account} {acc : String} {a : Account}
    {amountStr : String} (hfound : findAccountFile dir acc = some a)
    (hdig : amountOk (some amountStr) = true)
    (hle : ¬(a.balance < (parseNatDigits amountStr : Int))) :
    transactionLocal "AW" dir acc (some amountStr) =
      .ok (writeBalance dir acc (a.balance - (parseNatDigits amountStr : Int))) "AW" none := by
  simp only [transactionLocal, hfound, hdig, if_true, Option.getD_some]
  rw [if_neg (by decide), if_neg hle]

theorem transactionLocal_AW_low {dir : List Account} {acc : String} {a : Account}
    {amountStr : String} (hfound : findAccountFile dir acc = some a)
    (hdig : amountOk (some amountStr) = true)
    (hgt : a.balance < (parseNatDigits amountStr : Int)) :
    transactionLocal "AW" dir acc (some amountStr) = .thrown "LOW_FUNDS" dir := by
  simp only [transactionLocal, hfound, hdig, if_true, Option.getD_some]
  rw [if_neg (by decide), if_pos hgt]

theorem transactionLocal_badformat {ty : String} {dir : List Account} {acc : String}
    {amountStr : Option String}
    (h : findAccountFile dir acc = none ∨ amountOk amountStr = false) :
    transactionLocal ty dir acc amountStr =
      .ok dir "ER Špatný formát nebo účet neexistuje." none := by
  rcases h with h | h
  · simp only [transactionLocal, h]
  · cases hf : findAccountFile dir acc with
    | none => simp only [transactionLocal, h, hf]
    | some a => simp only [transactionLocal, h, hf, Bool.false_eq_true, if_false]

theorem balanceLocal_none {dir : List Account} {acc : String}
    (h : findAccountFile dir acc = none) :
    balanceLocal dir acc = .ok dir "ER Účet neexistuje." none := by
  simp only [balanceLocal, h]

theorem balanceLocal_some {dir : List Account} {acc : String} {a : Account}
    (h : findAccountFile dir acc = some a) :
    balanceLocal dir acc = .ok dir ("AB " ++ toString a.balance) none := by
  simp only [balanceLocal, h]

theorem transactionLocal_fwd {ty : String} {dir : List Account} {acc : String}
    {amt : Option String} {d : List Account} {r : String} {f : Option (String × String)}
    (h : transactionLocal ty dir acc amt = .ok d r f) : f = none := by
  simp only [transactionLocal] at h
  split at h
  · cases h; rfl
  · split at h
    · split at h
      · cases h; rfl
      · split at h
        · cases h
        · cases h; rfl
    · cases h; rfl

theorem balanceLocal_fwd {dir : List Account} {acc : String}
    {d : List Account} {r : String} {f : Option (String × String)}
    (h : balanceLocal dir acc = .ok d r f) : f = none := by
  simp only [balanceLocal] at h
  split at h
  · cases h; rfl
  · cases h; rfl

/-- Sum of the balances of all currently existing accounts (the
specification-side totalBalance aggregate). -/
def sumBalances (dir : List Account) : Int := (dir.map (fun a => a.balance)).sum

/-- Number of distinct owning identities among existing accounts (the
specification-side accountCount aggregate, one count per unique owner). -/
def distinctOwners (dir : List Account) : Nat :=
  ((dir.map (fun a => a.owner)).dedup).length

theorem bankTotal_eq (dir : List Account) : bankTotal dir = sumBalances dir := by
  have hgen : ∀ (l : List Account) (c : Int),
      l.foldl (fun t a => t + a.balance) c = c + (l.map (fun a => a.balance)).sum := by
    intro l
    induction l with
    | nil => intro c; simp
    | cons a rest ih =>
      intro c
      rw [List.foldl_cons, ih, List.map_cons, List.sum_cons]
      ring
  have h0 := hgen dir 0
  unfold bankTotal sumBalances
  rw [h0]
  ring

theorem filterMap_ownerOf : ∀ (dir : List Account), (∀ a ∈ dir, AccountWF a) →
    dir.filterMap ownerOf = dir.map (fun a => a.owner) := by
  intro dir
  induction dir with
  | nil => intro _; rfl
  | cons a rest ih =>
    intro h
    rw [List.filterMap_cons, ownerOf_eq (h a (List.mem_cons_self a rest)),
      List.map_cons, ih (fun b hb => h b (List.mem_cons_of_mem a hb))]

theorem bnCount_eq (dir : List Account) (h : ∀ a ∈ dir, AccountWF a) :
    bnCount dir = distinctOwners dir := by
  unfold bnCount distinctOwners
  rw [filterMap_ownerOf dir h]

/-- C1: for every existing local account and digit-only amount string, a
local AD deposit replies with the success line and the stored balance
afterwards equals the balance before plus the amount; symmetrically a local
AW withdrawal whose amount is at most the balance before replies with the
success line and stores the balance before minus the amount, with exact
unbounded-integer arithmetic. -/
theorem c1_local_transaction_arith
    (bankCode clientIp freshNum target amountStr inputAD inputAW acc : String)
    (orc : ProxyOracle) (dir : List Account) (a : Account)
    (htokAD : tokensOf inputAD = ["AD", target, amountStr])
    (htokAW : tokensOf inputAW = ["AW", target, amountStr])
    (hsplit : jsSplitOn '/' target = [acc, bankCode])
    (hfound : findAccountFile dir acc = some a)
    (h1 : amountStr ≠ "") (h2 : amountStr.data.all Char.isDigit = true) :
    ((dispatch true bankCode clientIp freshNum orc dir inputAD).written = ["AD"] ∧
      findAccountFile (dispatch true bankCode clientIp freshNum orc dir inputAD).dir acc =
        some ⟨a.num, a.owner, a.balance + (parseNatDigits amountStr : Int)⟩) ∧
    ((parseNatDigits amountStr : Int) ≤ a.balance →
      (dispatch true bankCode clientIp freshNum orc dir inputAW).written = ["AW"] ∧
      findAccountFile (dispatch true bankCode clientIp freshNum orc dir inputAW).dir acc =
        some ⟨a.num, a.owner, a.balance - (parseNatDigits amountStr : Int)⟩) := by
  have hdig := amountOk_some h1 h2
  have hip : (jsSplitOn '/' target).get? 1 = none ∨ (jsSplitOn '/' target).get? 1 = some "" ∨
      (jsSplitOn '/' target).get? 1 = some bankCode :=
    Or.inr (Or.inr (by rw [hsplit]; rfl))
  have hacc : (jsSplitOn '/' target).headD "" = acc := by rw [hsplit]; rfl
  have hAD : dispatch true bankCode clientIp freshNum orc dir inputAD =
      ⟨writeBalance dir acc (a.balance + (parseNatDigits amountStr : Int)), ["AD"], none⟩ := by
    rw [dispatch_eq_runCmd htokAD]
    refine runCmd_ok ?_
    rw [execCmd_AD, TransactionCommand_local _ _ _ _ _ _ hip, hacc]
    exact transactionLocal_AD hfound hdig
  constructor
  · rw [hAD]
    refine ⟨rfl, ?_⟩
    show findAccountFile (writeBalance dir acc _) acc = _
    rw [find_writeBalance, hfound]
    rfl
  · intro hle
    have hAW : dispatch true bankCode clientIp freshNum orc dir inputAW =
        ⟨writeBalance dir acc (a.balance - (parseNatDigits amountStr : Int)), ["AW"], none⟩ := by
      rw [dispatch_eq_runCmd htokAW]
      refine runCmd_ok ?_
      rw [execCmd_AW, TransactionCommand_local _ _ _ _ _ _ hip, hacc]
      exact transactionLocal_AW_ok hfound hdig (by omega)
    rw [hAW]
    refine ⟨rfl, ?_⟩
    show findAccountFile (writeBalance dir acc _) acc = _
    rw [find_writeBalance, hfound]
    rfl

theorem c1_witness :
    ("7" : String) ≠ "" ∧ ("7" : String).data.all Char.isDigit = true ∧
    (dispatch true "1.1.1.1" "2.2.2.2" "54321" (fun _ _ => ProxyResult.err "e")
        [⟨"12345", "3.3.3.3", 10⟩] "AD 12345/1.1.1.1 7").written = ["AD"] ∧
    findAccountFile (dispatch true "1.1.1.1" "2.2.2.2" "54321" (fun _ _ => ProxyResult.err "e")
        [⟨"12345", "3.3.3.3", 10⟩] "AD 12345/1.1.1.1 7").dir "12345" =
      some ⟨"12345", "3.3.3.3", 10 + (parseNatDigits "7" : Int)⟩ ∧
    (dispatch true "1.1.1.1" "2.2.2.2" "54321" (fun _ _ => ProxyResult.err "e")
        [⟨"12345", "3.3.3.3", 10⟩] "AW 12345/1.1.1.1 7").written = ["AW"] := by
  have h := c1_local_transaction_arith "1.1.1.1" "2.2.2.2" "54321" "12345/1.1.1.1" "7"
      "AD 12345/1.1.1.1 7" "AW 12345/1.1.1.1 7" "12345" (fun _ _ => ProxyResult.err "e")
      [⟨"12345", "3.3.3.3", 10⟩] ⟨"12345", "3.3.3.3", 10⟩ (by decide) (by decide) (by decide)
      (by decide) (by decide) (by decide)
  exact ⟨by decide, by decide, h.1.1, h.1.2, (h.2 (by decide)).1⟩

/-- C2: an AW withdrawal on an existing local account whose amount exceeds
the current balance answers with the dedicated insufficient-funds ER line,
which differs from the generic server-error ER line, and leaves the account
store, hence the stored balance of that account, unchanged. -/
theorem c2_insufficient_funds
    (bankCode clientIp freshNum target amountStr input acc : String)
    (orc : ProxyOracle) (dir : List Account) (a : Account)
    (htok : tokensOf input = ["AW", target, amountStr])
    (hsplit : jsSplitOn '/' target = [acc, bankCode])
    (hfound : findAccountFile dir acc = some a)
    (h1 : amountStr ≠ "") (h2 : amountStr.data.all Char.isDigit = true)
    (hgt : a.balance < (parseNatDigits amountStr : Int)) :
    dispatch true bankCode clientIp freshNum orc dir input =
      ⟨dir, ["ER Není dostatek finančních prostředků!"], none⟩ ∧
    "ER Není dostatek finančních prostředků!" ≠ "ER Chyba na serveru" ∧
    findAccountFile (dispatch true bankCode clientIp freshNum orc dir input).dir acc = some a := by
  have hdig := amountOk_some h1 h2
  have hip : (jsSplitOn '/' target).get? 1 = none ∨ (jsSplitOn '/' target).get? 1 = some "" ∨
      (jsSplitOn '/' target).get? 1 = some bankCode :=
    Or.inr (Or.inr (by rw [hsplit]; rfl))
  have hacc : (jsSplitOn '/' target).headD "" = acc := by rw [hsplit]; rfl
  have hd : dispatch true bankCode clientIp freshNum orc dir input =
      ⟨dir, ["ER Není dostatek finančních prostředků!"], none⟩ := by
    rw [dispatch_eq_runCmd htok]
    rw [runCmd_thrown (by
      rw [execCmd_AW, TransactionCommand_local _ _ _ _ _ _ hip, hacc]
      exact transactionLocal_AW_low hfound hdig hgt)]
    rfl
  exact ⟨hd, by decide, by rw [hd]; exact hfound⟩

theorem c2_witness :
    ("25" : String).data.all Char.isDigit = true ∧
    ((10 : Int) < (parseNatDigits "25" : Int)) ∧
    dispatch true "1.1.1.1" "2.2.2.2" "54321" (fun _ _ => ProxyResult.err "e")
        [⟨"12345", "3.3.3.3", 10⟩] "AW 12345/1.1.1.1 25" =
      ⟨[⟨"12345", "3.3.3.3", 10⟩], ["ER Není dostatek finančních prostředků!"], none⟩ := by
  have h := c2_insufficient_funds "1.1.1.1" "2.2.2.2" "54321" "12345/1.1.1.1" "25"
      "AW 12345/1.1.1.1 25" "12345" (fun _ _ => ProxyResult.err "e")
      [⟨"12345", "3.3.3.3", 10⟩] ⟨"12345", "3.3.3.3", 10⟩ (by decide) (by decide) (by decide)
      (by decide) (by decide) (by decide)
  exact ⟨by decide, by decide, h.1⟩

/-- C10: AD and AW with amount "0" on an existing local account pass the
digit-only amount check, reply with the normal success line, and leave the
whole account store unchanged, so deposit and withdrawal of zero act as the
identity on the store state. -/
theorem c10_zero_amount_identity
    (bankCode clientIp freshNum target inputAD inputAW acc : String)
    (orc : ProxyOracle) (dir : List Account) (a : Account)
    (htokAD : tokensOf inputAD = ["AD", target, "0"])
    (htokAW : tokensOf inputAW = ["AW", target, "0"])
    (hsplit : jsSplitOn '/' target = [acc, bankCode])
    (hfound : findAccountFile dir acc = some a)
    (hnn : 0 ≤ a.balance) :
    dispatch true bankCode clientIp freshNum orc dir inputAD = ⟨dir, ["AD"], none⟩ ∧
    dispatch true bankCode clientIp freshNum orc dir inputAW = ⟨dir, ["AW"], none⟩ := by
  have h0 : (parseNatDigits "0" : Int) = 0 := by decide
  have hip : (jsSplitOn '/' target).get? 1 = none ∨ (jsSplitOn '/' target).get? 1 = some "" ∨
      (jsSplitOn '/' target).get? 1 = some bankCode :=
    Or.inr (Or.inr (by rw [hsplit]; rfl))
  have hacc : (jsSplitOn '/' target).headD "" = acc := by rw [hsplit]; rfl
  constructor
  · rw [dispatch_eq_runCmd htokAD]
    rw [runCmd_ok (by
      rw [execCmd_AD, TransactionCommand_local _ _ _ _ _ _ hip, hacc]
      exact transactionLocal_AD hfound (by decide))]
    rw [h0, Int.add_zero, writeBalance_self dir acc a hfound]
  · rw [dispatch_eq_runCmd htokAW]
    rw [runCmd_ok (by
      rw [execCmd_AW, TransactionCommand_local _ _ _ _ _ _ hip, hacc]
      exact transactionLocal_AW_ok hfound (by decide) (by rw [h0]; omega))]
    rw [h0, Int.sub_zero, writeBalance_self dir acc a hfound]

theorem c10_witness :
    findAccountFile [(⟨"12345", "3.3.3.3", 42⟩ : Account)] "12345" =
      some ⟨"12345", "3.3.3.3", 42⟩ ∧
    dispatch true "1.1.1.1" "2.2.2.2" "54321" (fun _ _ => ProxyResult.err "e")
        [⟨"12345", "3.3.3.3", 42⟩] "AD 12345/1.1.1.1 0" =
      ⟨[⟨"12345", "3.3.3.3", 42⟩], ["AD"], none⟩ ∧
    dispatch true "1.1.1.1" "2.2.2.2" "54321" (fun _ _ => ProxyResult.err "e")
        [⟨"12345", "3.3.3.3", 42⟩] "AW 12345/1.1.1.1 0" =
      ⟨[⟨"12345", "3.3.3.3", 42⟩], ["AW"], none⟩ := by
  have h := c10_zero_amount_identity "1.1.1.1" "2.2.2.2" "54321" "12345/1.1.1.1"
      "AD 12345/1.1.1.1 0" "AW 12345/1.1.1.1 0" "12345" (fun _ _ => ProxyResult.err "e")
      [⟨"12345", "3.3.3.3", 42⟩] ⟨"12345", "3.3.3.3", 42⟩ (by decide) (by decide) (by decide)
      (by decide) (by decide)
  exact ⟨by decide, h.1, h.2⟩

/-- C3: in every reachable state of the account store, every existing
account's stored balance is a non-negative integer: account creation starts
at zero, deposits add validated non-negative amounts, withdrawals that would
go below zero are refused, and no command writes a negative balance. -/
theorem c3_balances_nonneg (dir : List Account) (hr : Reachable dir) :
    ∀ a ∈ dir, 0 ≤ a.balance :=
  fun a ha => (reachable_StoreInv hr a ha).1

theorem c3_witness :
    0 ≤ (Account.mk "12345" "1.2.3.4" 0).balance := by
  have h1 : (dispatch true "9.9.9.9" "1.2.3.4" "12345" (fun _ _ => ProxyResult.err "x")
      [] "AC").dir = [(⟨"12345", "1.2.3.4", 0⟩ : Account)] := by decide
  have hr : Reachable [(⟨"12345", "1.2.3.4", 0⟩ : Account)] := by
    refine h1 ▸ ?_
    exact Reachable.step true "9.9.9.9" "1.2.3.4" "12345" "AC" (fun _ _ => ProxyResult.err "x")
      [] ⟨by decide, by decide⟩ ⟨by decide, by decide⟩ (by simp) Reachable.init
  exact c3_balances_nonneg _ hr ⟨"12345", "1.2.3.4", 0⟩ (by simp)

/-- C9: at every reachable state of the account store, the BA command
replies with exactly the sum of the balances of all currently existing
accounts, and the BN command replies with exactly the number of distinct
owning identities among existing accounts, so an owner holding several
accounts is counted once. -/
theorem c9_aggregates (bankCode clientIp freshNum : String) (orc : ProxyOracle)
    (dir : List Account) (hr : Reachable dir) :
    (dispatch true bankCode clientIp freshNum orc dir "BA").written =
      ["BA " ++ toString (sumBalances dir)] ∧
    (dispatch true bankCode clientIp freshNum orc dir "BN").written =
      ["BN " ++ toString (distinctOwners dir)] := by
  have hwf := reachable_StoreInv hr
  have htokBA : tokensOf "BA" = ["BA"] := by decide
  have htokBN : tokensOf "BN" = ["BN"] := by decide
  constructor
  · rw [dispatch_eq_runCmd htokBA, runCmd_ok (by rw [execCmd_BA]; rfl)]
    show ["BA " ++ toString (bankTotal dir)] = _
    rw [bankTotal_eq]
  · rw [dispatch_eq_runCmd htokBN, runCmd_ok (by rw [execCmd_BN]; rfl)]
    show ["BN " ++ toString (bnCount dir)] = _
    rw [bnCount_eq dir (fun a ha => (hwf a ha).2)]

theorem c9_witness :
    (dispatch true "9.9.9.9" "5.5.5.5" "77777" (fun _ _ => ProxyResult.err "x")
        [(⟨"12345", "1.2.3.4", 0⟩ : Account)] "BA").written =
      ["BA " ++ toString (sumBalances [(⟨"12345", "1.2.3.4", 0⟩ : Account)])] ∧
    (dispatch true "9.9.9.9" "5.5.5.5" "77777" (fun _ _ => ProxyResult.err "x")
        [(⟨"12345", "1.2.3.4", 0⟩ : Account)] "BN").written =
      ["BN " ++ toString (distinctOwners [(⟨"12345", "1.2.3.4", 0⟩ : Account)])] := by
  have h1 : (dispatch true "9.9.9.9" "1.2.3.4" "12345" (fun _ _ => ProxyResult.err "x")
      [] "AC").dir = [(⟨"12345", "1.2.3.4", 0⟩ : Account)] := by decide
  refine c9_aggregates "9.9.9.9" "5.5.5.5" "77777" (fun _ _ => ProxyResult.err "x") _ ?_
  refine h1 ▸ ?_
  exact Reachable.step true "9.9.9.9" "1.2.3.4" "12345" "AC" (fun _ _ => ProxyResult.err "x")
    [] ⟨by decide, by decide⟩ ⟨by decide, by decide⟩ (by simp) Reachable.init

/-- C5: an AD, AW or AB command line whose embedded bank code equals the
local bank code is handled locally and never forwarded to any remote bank;
in particular when the named account does not exist locally the client
receives the local account-missing ER line (the shared
format-or-missing-account line for AD and AW, the account-does-not-exist
line for AB) rather than a forwarded request. -/
theorem c5_local_bankcode_never_forwarded
    (bankCode clientIp freshNum target inputAD inputAW inputAB : String)
    (rest restB : List String)
    (orc : ProxyOracle) (dir dir2 : List Account)
    (htokAD : tokensOf inputAD = "AD" :: target :: rest)
    (htokAW : tokensOf inputAW = "AW" :: target :: rest)
    (htokAB : tokensOf inputAB = "AB" :: target :: restB)
    (hip : (jsSplitOn '/' target).get? 1 = some bankCode)
    (hmiss : findAccountFile dir ((jsSplitOn '/' target).headD "") = none) :
    ((dispatch true bankCode clientIp freshNum orc dir2 inputAD).forwarded = none ∧
      (dispatch true bankCode clientIp freshNum orc dir2 inputAW).forwarded = none ∧
      (dispatch true bankCode clientIp freshNum orc dir2 inputAB).forwarded = none) ∧
    dispatch true bankCode clientIp freshNum orc dir inputAD =
      ⟨dir, ["ER Špatný formát nebo účet neexistuje."], none⟩ ∧
    dispatch true bankCode clientIp freshNum orc dir inputAW =
      ⟨dir, ["ER Špatný formát nebo účet neexistuje."], none⟩ ∧
    dispatch true bankCode clientIp freshNum orc dir inputAB =
      ⟨dir, ["ER Účet neexistuje."], none⟩ := by
  have hip3 : (jsSplitOn '/' target).get? 1 = none ∨ (jsSplitOn '/' target).get? 1 = some "" ∨
      (jsSplitOn '/' target).get? 1 = some bankCode := Or.inr (Or.inr hip)
  have hfwdT : ∀ (ty input : String), tokensOf input = ty :: target :: rest →
      execCmd bankCode clientIp freshNum orc dir2 ty (target :: rest) =
        TransactionCommand.execute ty bankCode orc dir2 (target :: rest) →
      (dispatch true bankCode clientIp freshNum orc dir2 input).forwarded = none := by
    intro ty input htok hexec
    rw [dispatch_eq_runCmd htok]
    unfold runCmd
    rw [hexec, TransactionCommand_local _ _ _ _ _ _ hip3]
    rcases htl : transactionLocal ty dir2 ((jsSplitOn '/' target).headD "") (rest.get? 0) with
      ⟨d, r, f⟩ | ⟨m, d⟩
    · simp only [htl]
      exact transactionLocal_fwd htl
    · simp only [htl]
  refine ⟨⟨hfwdT "AD" inputAD htokAD (execCmd_AD _ _ _ _ _ _),
          hfwdT "AW" inputAW htokAW (execCmd_AW _ _ _ _ _ _), ?_⟩, ?_, ?_, ?_⟩
  · rw [dispatch_eq_runCmd htokAB]
    unfold runCmd
    rw [execCmd_AB, BalanceCommand_local _ _ _ _ _ hip3]
    rcases hbl : balanceLocal dir2 ((jsSplitOn '/' target).headD "") with ⟨d, r, f⟩ | ⟨m, d⟩
    · simp only [hbl]
      exact balanceLocal_fwd hbl
    · simp only [hbl]
  · rw [dispatch_eq_runCmd htokAD]
    refine runCmd_ok ?_
    rw [execCmd_AD, TransactionCommand_local _ _ _ _ _ _ hip3]
    exact transactionLocal_badformat (Or.inl hmiss)
  · rw [dispatch_eq_runCmd htokAW]
    refine runCmd_ok ?_
    rw [execCmd_AW, TransactionCommand_local _ _ _ _ _ _ hip3]
    exact transactionLocal_badformat (Or.inl hmiss)
  · rw [dispatch_eq_runCmd htokAB]
    refine runCmd_ok ?_
    rw [execCmd_AB, BalanceCommand_local _ _ _ _ _ hip3]
    exact balanceLocal_none hmiss

theorem c5_witness :
    (jsSplitOn '/' "77777/1.1.1.1").get? 1 = some "1.1.1.1" ∧
    findAccountFile [(⟨"12345", "3.3.3.3", 10⟩ : Account)] "77777" = none ∧
    (dispatch true "1.1.1.1" "2.2.2.2" "54321" (fun _ _ => ProxyResult.reply "AD")
        [(⟨"12345", "3.3.3.3", 10⟩ : Account)] "AD 77777/1.1.1.1 5").forwarded = none ∧
    dispatch true "1.1.1.1" "2.2.2.2" "54321" (fun _ _ => ProxyResult.reply "AD")
        [(⟨"12345", "3.3.3.3", 10⟩ : Account)] "AD 77777/1.1.1.1 5" =
      ⟨[(⟨"12345", "3.3.3.3", 10⟩ : Account)], ["ER Špatný formát nebo účet neexistuje."], none⟩ ∧
    dispatch true "1.1.1.1" "2.2.2.2" "54321" (fun _ _ => ProxyResult.reply "AB 0")
        [(⟨"12345", "3.3.3.3", 10⟩ : Account)] "AB 77777/1.1.1.1" =
      ⟨[(⟨"12345", "3.3.3.3", 10⟩ : Account)], ["ER Účet neexistuje."], none⟩ := by
  have h := c5_local_bankcode_never_forwarded "1.1.1.1" "2.2.2.2" "54321" "77777/1.1.1.1"
      "AD 77777/1.1.1.1 5" "AW 77777/1.1.1.1 5" "AB 77777/1.1.1.1" ["5"] []
      (fun _ _ => ProxyResult.reply "AD") [⟨"12345", "3.3.3.3", 10⟩] [⟨"12345", "3.3.3.3", 10⟩]
      (by decide) (by decide) (by decide) (by decide) (by decide)
  have h2 := c5_local_bankcode_never_forwarded "1.1.1.1" "2.2.2.2" "54321" "77777/1.1.1.1"
      "AD 77777/1.1.1.1 5" "AW 77777/1.1.1.1 5" "AB 77777/1.1.1.1" ["5"] []
      (fun _ _ => ProxyResult.reply "AB 0") [⟨"12345", "3.3.3.3", 10⟩] [⟨"12345", "3.3.3.3", 10⟩]
      (by decide) (by decide) (by decide) (by decide) (by decide)
  exact ⟨by decide, by decide, h.1.1, h.2.1, h2.2.2.2⟩

theorem RemoveCommand_notOwner {clientIp target acc : String} {dir : List Account}
    {a : Account} (hacc : (jsSplitOn '/' target).headD "" = acc)
    (hfound : findAccountFile dir acc = some a)
    (ho : ownerOf a ≠ some clientIp) :
    RemoveCommand.execute clientIp dir [target] =
      .ok dir "ER Účet může smazat pouze jeho zakladatel z původní IP adresy." none := by
  simp only [RemoveCommand.execute, List.get?_cons_zero, Option.getD_some, hacc, hfound]
  rw [if_pos ho]

theorem RemoveCommand_zero {clientIp target acc : String} {dir : List Account}
    {a : Account} (hacc : (jsSplitOn '/' target).headD "" = acc)
    (hfound : findAccountFile dir acc = some a)
    (ho : ownerOf a = some clientIp) (hb : a.balance = 0) :
    RemoveCommand.execute clientIp dir [target] = .ok (removeAccount dir acc) "AR" none := by
  simp only [RemoveCommand.execute, List.get?_cons_zero, Option.getD_some, hacc, hfound]
  rw [if_neg (by simp [ho]), if_pos hb]

theorem RemoveCommand_nonzero {clientIp target acc : String} {dir : List Account}
    {a : Account} (hacc : (jsSplitOn '/' target).headD "" = acc)
    (hfound : findAccountFile dir acc = some a)
    (ho : ownerOf a = some clientIp) (hb : ¬(a.balance = 0)) :
    RemoveCommand.execute clientIp dir [target] =
      .ok dir "ER Nelze smazat bankovní účet na kterém jsou finance." none := by
  simp only [RemoveCommand.execute, List.get?_cons_zero, Option.getD_some, hacc, hfound]
  rw [if_neg (by simp [ho]), if_neg hb]

/-- C4 counterexample: generated account numbers can collide across owners,
because account creation only checks for the exact owner-specific file name.
In the reachable state below, the creator at 1.1.1.1 removes its
zero-balance account 12345 successfully, yet a subsequent AB on 12345 still
answers with a balance line instead of the account-missing error, so the
claim's "after which AB on that account returns NotFound" is false. -/
theorem c4_counterexample :
    Reachable [(⟨"12345", "1.1.1.1", 0⟩ : Account), ⟨"12345", "2.2.2.2", 0⟩] ∧
    dispatch true "9.9.9.9" "1.1.1.1" "55555" (fun _ _ => ProxyResult.err "x")
        [(⟨"12345", "1.1.1.1", 0⟩ : Account), ⟨"12345", "2.2.2.2", 0⟩] "AR 12345/9.9.9.9" =
      ⟨[(⟨"12345", "2.2.2.2", 0⟩ : Account)], ["AR"], none⟩ ∧
    (dispatch true "9.9.9.9" "1.1.1.1" "55555" (fun _ _ => ProxyResult.err "x")
        [(⟨"12345", "2.2.2.2", 0⟩ : Account)] "AB 12345/9.9.9.9").written = ["AB 0"] ∧
    ["AB 0"] ≠ ["ER Účet neexistuje."] := by
  refine ⟨?_, by decide, by decide, by decide⟩
  have h1 : (dispatch true "9.9.9.9" "1.1.1.1" "12345" (fun _ _ => ProxyResult.err "x")
      [] "AC").dir = [(⟨"12345", "1.1.1.1", 0⟩ : Account)] := by decide
  have h2 : (dispatch true "9.9.9.9" "2.2.2.2" "12345" (fun _ _ => ProxyResult.err "x")
      [(⟨"12345", "1.1.1.1", 0⟩ : Account)] "AC").dir =
      [(⟨"12345", "1.1.1.1", 0⟩ : Account), ⟨"12345", "2.2.2.2", 0⟩] := by decide
  refine h2 ▸ ?_
  refine Reachable.step true "9.9.9.9" "2.2.2.2" "12345" "AC" (fun _ _ => ProxyResult.err "x")
    [(⟨"12345", "1.1.1.1", 0⟩ : Account)] ⟨by decide, by decide⟩ ⟨by decide, by decide⟩
    (by decide) ?_
  refine h1 ▸ ?_
  exact Reachable.step true "9.9.9.9" "1.1.1.1" "12345" "AC" (fun _ _ => ProxyResult.err "x")
    [] ⟨by decide, by decide⟩ ⟨by decide, by decide⟩ (by simp) Reachable.init

/-- C4 amended: for an existing account whose number-prefix matches exactly
one stored record (the intended regime of unique account numbers; the
generator can collide across owners, which the counterexample exploits), an
AR request from an identity other than the recorded creator fails with the
not-owner ER line and the account still exists; an AR request from the
creator with balance 0 deletes the record, replies success, and a subsequent
AB on that account answers the account-missing error; and an AR request from
the creator on a nonzero balance fails with the nonzero-balance ER line,
leaving the account in place. -/
theorem c4_remove_ownership
    (bankCode clientIpO clientIpX freshNum target inputAR inputAB acc : String)
    (orc : ProxyOracle) (dir : List Account) (a : Account)
    (htokAR : tokensOf inputAR = ["AR", target])
    (htokAB : tokensOf inputAB = ["AB", target])
    (hsplit : jsSplitOn '/' target = [acc, bankCode])
    (hfound : findAccountFile dir acc = some a)
    (hwf : AccountWF a)
    (huniq : dir.countP (matchesAcc acc) ≤ 1)
    (hX : clientIpX ≠ a.owner) :
    dispatch true bankCode clientIpX freshNum orc dir inputAR =
      ⟨dir, ["ER Účet může smazat pouze jeho zakladatel z původní IP adresy."], none⟩ ∧
    (a.balance = 0 →
      dispatch true bankCode a.owner freshNum orc dir inputAR =
        ⟨removeAccount dir acc, ["AR"], none⟩ ∧
      (dispatch true bankCode clientIpO freshNum orc (removeAccount dir acc) inputAB).written =
        ["ER Účet neexistuje."]) ∧
    (a.balance ≠ 0 →
      dispatch true bankCode a.owner freshNum orc dir inputAR =
        ⟨dir, ["ER Nelze smazat bankovní účet na kterém jsou finance."], none⟩) := by
  have hacc : (jsSplitOn '/' target).headD "" = acc := by rw [hsplit]; rfl
  have hip3 : (jsSplitOn '/' target).get? 1 = none ∨ (jsSplitOn '/' target).get? 1 = some "" ∨
      (jsSplitOn '/' target).get? 1 = some bankCode :=
    Or.inr (Or.inr (by rw [hsplit]; rfl))
  have howner := ownerOf_eq hwf
  refine ⟨?_, ?_, ?_⟩
  · rw [dispatch_eq_runCmd htokAR]
    refine runCmd_ok ?_
    rw [execCmd_AR]
    exact RemoveCommand_notOwner hacc hfound
      (by rw [howner]; exact fun e => hX (Option.some.inj e).symm)
  · intro hb
    constructor
    · rw [dispatch_eq_runCmd htokAR]
      refine runCmd_ok ?_
      rw [execCmd_AR]
      exact RemoveCommand_zero hacc hfound howner hb
    · rw [dispatch_eq_runCmd htokAB]
      rw [runCmd_ok (by
        rw [execCmd_AB, BalanceCommand_local _ _ _ _ _ hip3, hacc]
        exact balanceLocal_none (find_removeAccount hfound huniq))]
  · intro hb
    rw [dispatch_eq_runCmd htokAR]
    refine runCmd_ok ?_
    rw [execCmd_AR]
    exact RemoveCommand_nonzero hacc hfound howner hb

theorem c4_witness :
    findAccountFile [(⟨"12345", "3.3.3.3", 0⟩ : Account)] "12345" =
      some ⟨"12345", "3.3.3.3", 0⟩ ∧
    dispatch true "1.1.1.1" "4.4.4.4" "54321" (fun _ _ => ProxyResult.err "e")
        [(⟨"12345", "3.3.3.3", 0⟩ : Account)] "AR 12345/1.1.1.1" =
      ⟨[(⟨"12345", "3.3.3.3", 0⟩ : Account)],
        ["ER Účet může smazat pouze jeho zakladatel z původní IP adresy."], none⟩ ∧
    dispatch true "1.1.1.1" "3.3.3.3" "54321" (fun _ _ => ProxyResult.err "e")
        [(⟨"12345", "3.3.3.3", 0⟩ : Account)] "AR 12345/1.1.1.1" =
      ⟨removeAccount [(⟨"12345", "3.3.3.3", 0⟩ : Account)] "12345", ["AR"], none⟩ ∧
    (dispatch true "1.1.1.1" "4.4.4.4" "54321" (fun _ _ => ProxyResult.err "e")
        (removeAccount [(⟨"12345", "3.3.3.3", 0⟩ : Account)] "12345") "AB 12345/1.1.1.1").written =
      ["ER Účet neexistuje."] := by
  have h := c4_remove_ownership "1.1.1.1" "4.4.4.4" "4.4.4.4" "54321" "12345/1.1.1.1"
      "AR 12345/1.1.1.1" "AB 12345/1.1.1.1" "12345" (fun _ _ => ProxyResult.err "e")
      [⟨"12345", "3.3.3.3", 0⟩] ⟨"12345", "3.3.3.3", 0⟩ (by decide) (by decide) (by decide)
      (by decide) ⟨⟨by decide, by decide⟩, ⟨by decide, by decide⟩⟩ (by decide) (by decide)
  exact ⟨by decide, h.1, (h.2.1 (by decide)).1, (h.2.1 (by decide)).2⟩

theorem TransactionCommand_proxy (ty bankCode target amountStr ip : String)
    (orc : ProxyOracle) (dir : List Account)
    (hip : (jsSplitOn '/' target).get? 1 = some ip)
    (hip1 : ip ≠ "") (hip2 : ip ≠ bankCode) :
    TransactionCommand.execute ty bankCode orc dir [target, amountStr] =
      (match orc ip (ty ++ " " ++ target ++ " " ++ amountStr) with
        | .reply r => .ok dir r (some (ip, ty ++ " " ++ target ++ " " ++ amountStr))
        | .err m => .ok dir ("ER Chyba při komunikaci s cizí bankou: " ++ m)
            (some (ip, ty ++ " " ++ target ++ " " ++ amountStr))) := by
  simp only [TransactionCommand.execute, List.get?_cons_zero, List.get?_cons_succ,
    Option.getD_some, hip]
  rw [if_pos ⟨hip1, hip2⟩]
  rfl

theorem BalanceCommand_proxy (bankCode target ip : String) (rest : List String)
    (orc : ProxyOracle) (dir : List Account)
    (hip : (jsSplitOn '/' target).get? 1 = some ip)
    (hip1 : ip ≠ "") (hip2 : ip ≠ bankCode) :
    BalanceCommand.execute bankCode orc dir (target :: rest) =
      (match orc ip ("AB " ++ target) with
        | .reply r => .ok dir r (some (ip, "AB " ++ target))
        | .err m => .ok dir ("ER Chyba při komunikaci s cizí bankou: " ++ m)
            (some (ip, "AB " ++ target))) := by
  simp only [BalanceCommand.execute, List.get?_cons_zero, List.get?_cons_succ,
    Option.getD_some, hip]
  rw [if_pos ⟨hip1, hip2⟩]
  rfl

/-- C6 counterexample: the line forwarded to a foreign bank is rebuilt from
the parsed tokens joined by single spaces, not the original client line: a
client line with two spaces between target and amount is forwarded with a
single space, so the forwarded line differs from the original line the
client sent, contradicting "exactly the original line" (a full re-send). -/
theorem c6_counterexample :
    (dispatch true "1.1.1.1" "5.5.5.5" "77777" (fun _ _ => ProxyResult.reply "AD")
        [] "AD 12345/9.9.9.9  7").forwarded = some ("9.9.9.9", "AD 12345/9.9.9.9 7") ∧
    ("AD 12345/9.9.9.9 7" : String) ≠ "AD 12345/9.9.9.9  7" :=
  ⟨by decide, by decide⟩

/-- C6 amended: a command addressed to a foreign bank code is forwarded as a
line re-derived from the parsed tokens - the verb, the account/bankCode
target and, for AD and AW, the amount, joined by single spaces - which
coincides with the original client line exactly when the client used single
separating spaces and exactly these tokens; the remote's (trimmed) reply is
relayed to the original client unchanged as the whole response line. -/
theorem c6_forward_rederived
    (bankCode clientIp freshNum target amountStr inputT inputB ip ty r rB : String)
    (orc : ProxyOracle) (dir : List Account)
    (hty : ty = "AD" ∨ ty = "AW")
    (htokT : tokensOf inputT = [ty, target, amountStr])
    (htokB : tokensOf inputB = ["AB", target])
    (hip : (jsSplitOn '/' target).get? 1 = some ip)
    (hip1 : ip ≠ "") (hip2 : ip ≠ bankCode)
    (horcT : orc ip (ty ++ " " ++ target ++ " " ++ amountStr) = ProxyResult.reply r)
    (horcB : orc ip ("AB " ++ target) = ProxyResult.reply rB) :
    dispatch true bankCode clientIp freshNum orc dir inputT =
      ⟨dir, [r], some (ip, ty ++ " " ++ target ++ " " ++ amountStr)⟩ ∧
    dispatch true bankCode clientIp freshNum orc dir inputB =
      ⟨dir, [rB], some (ip, "AB " ++ target)⟩ := by
  constructor
  · rw [dispatch_eq_runCmd htokT]
    refine runCmd_ok ?_
    have hexec : execCmd bankCode clientIp freshNum orc dir ty [target, amountStr] =
        TransactionCommand.execute ty bankCode orc dir [target, amountStr] := by
      rcases hty with hty | hty <;> subst hty
      · exact execCmd_AD _ _ _ _ _ _
      · exact execCmd_AW _ _ _ _ _ _
    rw [hexec, TransactionCommand_proxy ty bankCode target amountStr ip orc dir hip hip1 hip2,
      horcT]
  · rw [dispatch_eq_runCmd htokB]
    refine runCmd_ok ?_
    rw [execCmd_AB, BalanceCommand_proxy bankCode target ip [] orc dir hip hip1 hip2, horcB]

theorem c6_witness :
    (jsSplitOn '/' "12345/9.9.9.9").get? 1 = some "9.9.9.9" ∧
    dispatch true "1.1.1.1" "5.5.5.5" "77777"
        (fun i l => if i = "9.9.9.9" ∧ l = "AD 12345/9.9.9.9 7" then ProxyResult.reply "AD"
          else ProxyResult.reply "AB 31")
        [] "AD 12345/9.9.9.9 7" =
      ⟨[], ["AD"], some ("9.9.9.9", "AD 12345/9.9.9.9 7")⟩ ∧
    dispatch true "1.1.1.1" "5.5.5.5" "77777"
        (fun i l => if i = "9.9.9.9" ∧ l = "AD 12345/9.9.9.9 7" then ProxyResult.reply "AD"
          else ProxyResult.reply "AB 31")
        [] "AB 12345/9.9.9.9" =
      ⟨[], ["AB 31"], some ("9.9.9.9", "AB 12345/9.9.9.9")⟩ := by
  have h := c6_forward_rederived "1.1.1.1" "5.5.5.5" "77777" "12345/9.9.9.9" "7"
      "AD 12345/9.9.9.9 7" "AB 12345/9.9.9.9" "9.9.9.9" "AD" "AD" "AB 31"
      (fun i l => if i = "9.9.9.9" ∧ l = "AD 12345/9.9.9.9 7" then ProxyResult.reply "AD"
        else ProxyResult.reply "AB 31")
      [] (Or.inl rfl) (by decide) (by decide) (by decide) (by decide) (by decide)
      (by decide) (by decide)
  exact ⟨by decide, h.1, h.2⟩

/-- C7 counterexample: a command line with a malformed account/bankCode pair
- the bank-code part is missing entirely - is not answered with the uniform
bad-format ER line: the dispatcher treats it as local, and with an existing
account the deposit executes as if the line were well-formed, mutating the
stored balance and answering the success line. -/
theorem c7_counterexample :
    dispatch true "9.9.9.9" "1.2.3.4" "55555" (fun _ _ => ProxyResult.err "x")
        [⟨"12345", "1.2.3.4", 7⟩] "AD 12345 500" =
      ⟨[⟨"12345", "1.2.3.4", 507⟩], ["AD"], none⟩ ∧
    ["AD"] ≠ ["ER Špatný formát nebo účet neexistuje."] :=
  ⟨by decide, by decide⟩

/-- C7 amended: for AD and AW command lines that are handled locally (the
bank-code part missing, empty, or equal to the local bank code), a
non-numeric or missing amount, or a reference to an account that does not
exist locally, yields the single uniform bad-format ER line, with no crash
and no mutation of any account; a missing bank-code part alone however does
not cause rejection - such a line is treated as local and executed normally
when the account exists and the amount is a digit string. -/
theorem c7_badformat_local
    (bankCode clientIp freshNum target input ty : String) (rest : List String)
    (orc : ProxyOracle) (dir : List Account)
    (hty : ty = "AD" ∨ ty = "AW")
    (htok : tokensOf input = ty :: target :: rest)
    (hlocal : (jsSplitOn '/' target).get? 1 = none ∨
      (jsSplitOn '/' target).get? 1 = some "" ∨ (jsSplitOn '/' target).get? 1 = some bankCode)
    (hbad : findAccountFile dir ((jsSplitOn '/' target).headD "") = none ∨
      amountOk (rest.get? 0) = false) :
    dispatch true bankCode clientIp freshNum orc dir input =
      ⟨dir, ["ER Špatný formát nebo účet neexistuje."], none⟩ := by
  rw [dispatch_eq_runCmd htok]
  refine runCmd_ok ?_
  have hexec : execCmd bankCode clientIp freshNum orc dir ty (target :: rest) =
      TransactionCommand.execute ty bankCode orc dir (target :: rest) := by
    rcases hty with hty | hty <;> subst hty
    · exact execCmd_AD _ _ _ _ _ _
    · exact execCmd_AW _ _ _ _ _ _
  rw [hexec, TransactionCommand_local _ _ _ _ _ _ hlocal]
  exact transactionLocal_badformat hbad

theorem c7_witness :
    amountOk (some "abc") = false ∧
    dispatch true "1.1.1.1" "2.2.2.2" "54321" (fun _ _ => ProxyResult.err "e")
        [(⟨"12345", "3.3.3.3", 10⟩ : Account)] "AD 12345/1.1.1.1 abc" =
      ⟨[(⟨"12345", "3.3.3.3", 10⟩ : Account)], ["ER Špatný formát nebo účet neexistuje."], none⟩ := by
  have h := c7_badformat_local "1.1.1.1" "2.2.2.2" "54321" "12345/1.1.1.1"
      "AD 12345/1.1.1.1 abc" "AD" ["abc"] (fun _ _ => ProxyResult.err "e")
      [⟨"12345", "3.3.3.3", 10⟩] (Or.inl rfl) (by decide)
      (Or.inr (Or.inr (by decide))) (Or.inr (by decide))
  exact ⟨by decide, h⟩

/-- Timed result of one dispatched command under the data handler's
withTimeout race: the directory after everything settles, and the lines
written to the client in order. -/
structure TimedResult where
  dir : List Account
  written : List String
deriving DecidableEq

/-- Model of the server loop's `withTimeout` (a race of the handler promise
against a rejection timer) combined with the data handler: the reported
outcome is decided by comparing the handler's completion time with the
response timeout, but the handler's effects - its directory writes and its
own response line - happen regardless of the race, because the losing
promise is never cancelled; when the timer wins, the catch block writes the
timeout ER line first and the still-running handler commits its mutation and
writes its own line afterwards. -/
def timedDispatch (handlerMs timeoutMs : Nat) (netUp : Bool)
    (bankCode clientIp freshNum : String) (orc : ProxyOracle)
    (dir : List Account) (input : String) : TimedResult :=
  let r := dispatch netUp bankCode clientIp freshNum orc dir input
  if handlerMs ≤ timeoutMs then ⟨r.dir, r.written⟩
  else ⟨r.dir, "ER Operace trvala příliš dlouho!" :: r.written⟩

/-- C8: the code contradicts the claim.  A local deposit whose handler
completes only after the response timeout (six seconds of handler time
against a five-second deadline below) answers the client with the timeout ER
line, yet the balance write of the losing handler is still committed
afterwards - the store changes from balance 10 to balance 15 and the
handler's own success line is also written - because `Promise.race` does not
cancel the loser. -/
theorem c8_timeout_late_commit :
    timedDispatch 6000 5000 true "1.1.1.1" "2.2.2.2" "54321" (fun _ _ => ProxyResult.err "e")
        [⟨"12345", "3.3.3.3", 10⟩] "AD 12345/1.1.1.1 5" =
      ⟨[⟨"12345", "3.3.3.3", 15⟩], ["ER Operace trvala příliš dlouho!", "AD"]⟩ ∧
    [(⟨"12345", "3.3.3.3", 15⟩ : Account)] ≠ [⟨"12345", "3.3.3.3", 10⟩] :=
  ⟨by decide, by decide⟩
